import Mathlib

/-!
Shallow embedding of `update_stargaze_dataset.py` (stargaze-dataset).

The script is a linear pipeline: fetch hourly forecast rows from Open-Meteo,
annotate each row with astronomy features (Skyfield), merge with the existing
CSV (concat, `sort_values('datetime_utc')`, `drop_duplicates(keep='last')`,
`reset_index(drop=True)`), and write the CSV once at the end.

Modelling decisions, each justified against the source:

* A merged-dataset row (`Row`) is a record of the columns the script builds;
  `datetime_utc` is modelled as a natural number time index, the numeric
  columns as rationals (CSV cells are decimal literals), `is_night` as Bool.
* `drop_duplicates(subset=['datetime_utc'], keep='last')` keeps, in order,
  exactly the rows that have no later row with the same `datetime_utc`.
* `sort_values('datetime_utc')` uses pandas' default `kind='quicksort'`.
  The pandas documentation states that only the `mergesort`/`stable` kinds
  are stable, so the order of rows with equal keys in the output is not
  specified.  The sort is therefore embedded relationally: its output is
  some permutation of its input that is ascending in `datetime_utc`
  (`sort_values_spec`), and the merge theorems quantify over that output.
* `reset_index(drop=True)` does not change the row order: it is the
  identity on the list of rows.
* The `__main__` control flow and the write-once behaviour are embedded as
  `main_run` over an explicit file state, with the fetch and annotate stages
  as `Except`-valued parameters (their failures are network/ephemeris
  errors external to the control flow) and a counter of file writes.
* `pd.to_datetime` is called without `utc=True`, so a parsed timestamp
  carries timezone information exactly when the input string carries an
  explicit UTC offset; it never attaches a timezone the string does not
  have.  A time string is modelled by its wall-clock value plus its
  optional explicit offset (`TimeStr`), a pandas timestamp by its clock
  value plus its optional attached timezone (`PdTimestamp`).
* The astronomy annotator calls Skyfield per timestamp: those ephemeris
  lookups are modelled as oracle functions from the (whole-second) time
  index to real numbers.  Skyfield's `almanac.phase` is documented to
  return 0 at new moon and 180 degrees at full moon; the script feeds that
  angle to `(1 + cos(phase)) / 2`.
-/

namespace Stargaze

/-- One row of the merged dataset, with the columns the script writes to the
CSV (the `fetch_open_meteo_hourly` columns plus the `add_astronomy_features`
columns).  `datetime_utc` is a time index. -/
structure Row where
  datetime_utc : Nat
  cloud : ℚ
  precip_prob : ℚ
  visibility_m : ℚ
  temp_c : ℚ
  wind_m_s : ℚ
  sun_alt_deg : ℚ
  moon_alt_deg : ℚ
  moon_illum : ℚ
  is_night : Bool
  visibility_km : ℚ
deriving DecidableEq, Repr

/-- Builds a row with a given timestamp and cloud value, the other payload
fields zero; used for concrete inputs in witnesses and counterexamples. -/
def mkRow (t : Nat) (c : ℚ) : Row :=
  ⟨t, c, 0, 0, 0, 0, 0, 0, 0, false, 0⟩

/-- `combined.drop_duplicates(subset=['datetime_utc'], keep='last')`: keep, in
order, exactly the rows with no later row of equal `datetime_utc`. -/
def drop_duplicates_keep_last : List Row → List Row
  | [] => []
  | r :: rs =>
      if rs.any (fun x => x.datetime_utc == r.datetime_utc) then
        drop_duplicates_keep_last rs
      else
        r :: drop_duplicates_keep_last rs

/-- The rows of a list whose `datetime_utc` equals `k` (a measurement helper
for stating properties, not a source function). -/
def filterKey (k : Nat) (l : List Row) : List Row :=
  l.filter (fun r => r.datetime_utc == k)

/-- The list is ascending in `datetime_utc` (the postcondition pandas
guarantees for `sort_values('datetime_utc')`). -/
def sortedByKey (l : List Row) : Prop :=
  l.Pairwise (fun a b => a.datetime_utc ≤ b.datetime_utc)

instance (l : List Row) : Decidable (sortedByKey l) := by
  unfold sortedByKey; infer_instance

/-- All rows have pairwise distinct `datetime_utc` values. -/
def uniqueKeys (l : List Row) : Prop :=
  l.Pairwise (fun a b => a.datetime_utc ≠ b.datetime_utc)

instance (l : List Row) : Decidable (uniqueKeys l) := by
  unfold uniqueKeys; infer_instance

/-- Contract of `combined.sort_values('datetime_utc')` applied to `l`: the
result `s` is a permutation of `l` ascending in `datetime_utc`.  The pandas
default quicksort is not stable, so nothing more is guaranteed about the
relative order of rows with equal keys. -/
def sort_values_spec (l s : List Row) : Prop :=
  l.Perm s ∧ sortedByKey s

instance (l s : List Row) : Decidable (sort_values_spec l s) := by
  unfold sort_values_spec; infer_instance

/-- Output side of `save_merged`: if no prior dataset exists the new rows are
written as-is; otherwise the concatenation old ++ new is sorted (`s` stands
for the `sort_values` output, constrained by `sort_values_spec` in the
theorems) and then deduplicated keeping the last occurrence;
`reset_index(drop=True)` keeps that order. -/
def save_merged_out (existing : Option (List Row)) (new_df : List Row)
    (s : List Row) : List Row :=
  match existing with
  | none => new_df
  | some _ => drop_duplicates_keep_last s

/-- The sort contract matching `save_merged_out`: in the no-prior-dataset
branch the sort never runs, otherwise `s` must be a valid
`sort_values('datetime_utc')` output for old ++ new. -/
def sort_contract : Option (List Row) → List Row → List Row → Prop
  | none, _, _ => True
  | some old, new_df, s => sort_values_spec (old ++ new_df) s

instance (ex : Option (List Row)) (new_df s : List Row) :
    Decidable (sort_contract ex new_df s) := by
  cases ex with
  | none => exact isTrue trivial
  | some old => unfold sort_contract; infer_instance

/-- State of the dataset file at `CSV_PATH`: absent, present but unparsable
by `pd.read_csv`, or parsing to a list of rows. -/
inductive FileState where
  | absent
  | corrupt
  | good (rows : List Row)
deriving DecidableEq, Repr

/-- `load_existing`: returns `None` when the file is absent, the parsed rows
when it parses; `pd.read_csv` raising on a malformed file is the error
case. -/
def load_existing : FileState → Except String (Option (List Row))
  | .absent => .ok none
  | .corrupt => .error ("ParserError")
  | .good rows => .ok (some rows)

/-- Stateful `save_merged`: load the existing file (propagating its error and
leaving the file untouched), compute the merged rows, and perform exactly one
`to_csv` write.  The third component counts writes. -/
def save_merged (fs : FileState) (new_df s : List Row) :
    Except String Unit × FileState × Nat :=
  match load_existing fs with
  | .error e => (.error e, fs, 0)
  | .ok existing => (.ok (), .good (save_merged_out existing new_df s), 1)

/-- The `__main__` block: fetch, then annotate, then merge-and-save.  The
fetch result and the annotator are parameters carrying their own failure
modes (network/HTTP errors, ephemeris errors); an error at any stage
propagates and stops the pipeline before any write. -/
def main_run {α : Type} (fetch_res : Except String α)
    (annotate : α → Except String (List Row)) (fs : FileState) (s : List Row) :
    Except String Unit × FileState × Nat :=
  match fetch_res with
  | .error e => (.error e, fs, 0)
  | .ok df =>
      match annotate df with
      | .error e => (.error e, fs, 0)
      | .ok df2 => save_merged fs df2 s

/-- An hourly time string of the Open-Meteo response, reduced to what
`pd.to_datetime` inspects: its wall-clock value and its optional explicit
UTC-offset designator.  With `timezone=UTC` the API returns UTC wall-clock
times in offset-less iso8601 strings. -/
structure TimeStr where
  clock : Nat
  utc_offset : Option Int
deriving DecidableEq, Repr

/-- A pandas timestamp: a clock value plus the attached timezone, `none`
meaning timezone-naive. -/
structure PdTimestamp where
  clock : Nat
  tz : Option Int
deriving DecidableEq, Repr, Inhabited

/-- `pd.to_datetime` as called (no `utc=True` and no `format`): the parsed
timestamp carries timezone information exactly when the string has an
explicit offset; the wall-clock value is kept. -/
def to_datetime (t : TimeStr) : PdTimestamp :=
  ⟨t.clock, t.utc_offset⟩

/-- One row of the fetcher's DataFrame. -/
structure FetchRow where
  datetime_utc : PdTimestamp
  cloud : ℚ
  precip_prob : ℚ
  visibility_m : ℚ
  temp_c : ℚ
  wind_m_s : ℚ
deriving DecidableEq, Repr

/-- The `hourly` block of the parsed JSON response: six parallel arrays. -/
structure HourlyBlock where
  time : List TimeStr
  cloudcover : List ℚ
  precipitation_probability : List ℚ
  visibility : List ℚ
  temperature_2m : List ℚ
  windspeed_10m : List ℚ
deriving DecidableEq, Repr

/-- Row-wise construction of the fetcher's DataFrame from the six parallel
columns.  `pd.DataFrame` requires the arrays to have equal length (and
raises otherwise), so the theorems hypothesise equal lengths. -/
def zip_rows : List TimeStr → List ℚ → List ℚ → List ℚ → List ℚ → List ℚ →
    List FetchRow
  | t :: ts, c :: cs, p :: ps, v :: vs, tc :: tcs, w :: ws =>
      ⟨to_datetime t, c, p, v, tc, w⟩ :: zip_rows ts cs ps vs tcs ws
  | _, _, _, _, _, _ => []

/-- `fetch_open_meteo_hourly`, DataFrame-construction side: the HTTP request
and `raise_for_status` are the error cases handled in `main_run`; given a
successful response body, the rows are built column-wise with
`pd.to_datetime` applied to the `time` strings. -/
def fetch_open_meteo_hourly (h : HourlyBlock) : List FetchRow :=
  zip_rows h.time h.cloudcover h.precipitation_probability h.visibility
    h.temperature_2m h.windspeed_10m

noncomputable section

/-- The script's illumination formula `illum = (1 + math.cos(moon_phase))/2`
applied to the angle obtained from `almanac.phase`. -/
def moon_illum_of_phase (phase : ℝ) : ℝ := (1 + Real.cos phase) / 2

/-- A row after `add_astronomy_features`: the fetcher's columns plus the
real-valued astronomy columns, the night flag and the converted
visibility. -/
structure AnnRow where
  datetime_utc : PdTimestamp
  cloud : ℚ
  precip_prob : ℚ
  visibility_m : ℚ
  temp_c : ℚ
  wind_m_s : ℚ
  sun_alt_deg : ℝ
  moon_alt_deg : ℝ
  moon_illum : ℝ
  is_night : Bool
  visibility_km : ℚ
deriving Inhabited

/-- `add_astronomy_features`: per row, look up the apparent solar and lunar
altitude and the `almanac.phase` angle at the row's (second-truncated)
timestamp — the Skyfield calls are the oracle parameters — then derive
`moon_illum`, the -12 degree night flag, and `visibility_km`.  The column
operations `df['is_night'] = df['sun_alt_deg'] <= -12.0` and
`df['visibility_km'] = df['visibility_m'] / 1000.0` are element-wise, hence
per-row here. -/
def add_astronomy_features (sun_alt_at moon_alt_at phase_at : Nat → ℝ)
    (df : List FetchRow) : List AnnRow :=
  df.map fun r =>
    { datetime_utc := r.datetime_utc
      cloud := r.cloud
      precip_prob := r.precip_prob
      visibility_m := r.visibility_m
      temp_c := r.temp_c
      wind_m_s := r.wind_m_s
      sun_alt_deg := sun_alt_at r.datetime_utc.clock
      moon_alt_deg := moon_alt_at r.datetime_utc.clock
      moon_illum := moon_illum_of_phase (phase_at r.datetime_utc.clock)
      is_night := decide (sun_alt_at r.datetime_utc.clock ≤ -12)
      visibility_km := r.visibility_m / 1000 }

/-- A trivial ephemeris oracle used for concrete witness inputs. -/
def zeroEph : Nat → ℝ := fun _ => 0

/-- A concrete fetched row used for witness inputs. -/
def rawEx : FetchRow := ⟨⟨0, none⟩, 10, 0, 2000, 25, 3⟩

/-- The annotated row produced from `rawEx` with the `zeroEph` oracles. -/
def annEx : AnnRow :=
  (add_astronomy_features zeroEph zeroEph zeroEph [rawEx]).headI

end

/-- Strict ascending order on rows by `datetime_utc`. -/
def rowLt (a b : Row) : Prop := a.datetime_utc < b.datetime_utc

instance : IsAntisymm Row rowLt :=
  ⟨fun _ _ h1 h2 => absurd (h1.trans h2) (lt_irrefl _)⟩

theorem keepLast_sublist : ∀ l : List Row, (drop_duplicates_keep_last l).Sublist l := by
  intro l
  induction l with
  | nil => simp [drop_duplicates_keep_last]
  | cons r rs ih =>
      by_cases h : rs.any (fun x => x.datetime_utc == r.datetime_utc)
      · simpa [drop_duplicates_keep_last, h] using ih.cons r
      · simpa [drop_duplicates_keep_last, h] using ih.cons₂ r

theorem keepLast_uniqueKeys : ∀ l : List Row, uniqueKeys (drop_duplicates_keep_last l) := by
  intro l
  induction l with
  | nil => simp [uniqueKeys, drop_duplicates_keep_last]
  | cons r rs ih =>
      by_cases h : rs.any (fun x => x.datetime_utc == r.datetime_utc)
      · simpa [drop_duplicates_keep_last, h] using ih
      · rw [drop_duplicates_keep_last, if_neg h]
        refine List.Pairwise.cons ?_ ih
        intro b hb
        have hbrs : b ∈ rs := (keepLast_sublist rs).mem hb
        simp only [List.any_eq_true, not_exists, not_and, Bool.not_eq_true] at h
        intro heq
        have := h b hbrs
        simp [heq] at this

theorem keepLast_sorted {l : List Row} (h : sortedByKey l) :
    sortedByKey (drop_duplicates_keep_last l) :=
  h.sublist (keepLast_sublist l)

theorem filterKey_keepLast (k : Nat) :
    ∀ l : List Row, filterKey k (drop_duplicates_keep_last l)
      = ((filterKey k l).getLast?).toList := by
  intro l
  induction l with
  | nil => simp [drop_duplicates_keep_last, filterKey]
  | cons r rs ih =>
      by_cases h : rs.any (fun x => x.datetime_utc == r.datetime_utc)
      · rw [drop_duplicates_keep_last, if_pos h]
        by_cases hk : r.datetime_utc = k
        · -- rs still holds a row with key k, so the filter of rs is nonempty
          obtain ⟨x, hx, hxk⟩ := by simpa [List.any_eq_true] using h
          have hxmem : x ∈ filterKey k rs := by
            simp [filterKey, List.mem_filter, hx, hxk, hk]
          rw [ih]
          have hfil : filterKey k (r :: rs) = r :: filterKey k rs := by
            simp [filterKey, hk]
          rw [hfil]
          cases hfk : filterKey k rs with
          | nil => rw [hfk] at hxmem; simp at hxmem
          | cons y ys => simp [List.getLast?_cons_cons]
        · have hfil : filterKey k (r :: rs) = filterKey k rs := by
            simp [filterKey, hk]
          rw [hfil, ih]
      · rw [drop_duplicates_keep_last, if_neg h]
        simp only [List.any_eq_true, not_exists, not_and, Bool.not_eq_true] at h
        by_cases hk : r.datetime_utc = k
        · -- no row of rs has key k, so both sides reduce to [r]
          have hrs : filterKey k rs = [] := by
            rw [List.eq_nil_iff_forall_not_mem]
            intro x hx
            rcases List.mem_filter.mp hx with ⟨hx1, hx2⟩
            have := h x hx1
            simp only [beq_iff_eq] at hx2 this
            exact absurd (hx2.trans hk.symm) (by simpa using this)
          have hrec : filterKey k (drop_duplicates_keep_last rs) = [] := by
            rw [ih, hrs]; rfl
          have hcons : filterKey k (r :: drop_duplicates_keep_last rs)
              = r :: filterKey k (drop_duplicates_keep_last rs) := by
            simp [filterKey, hk]
          have hfil2 : filterKey k (r :: rs) = r :: filterKey k rs := by
            simp [filterKey, hk]
          rw [hcons, hrec, hfil2, hrs]
          rfl
        · have h1 : filterKey k (r :: drop_duplicates_keep_last rs)
              = filterKey k (drop_duplicates_keep_last rs) := by
            simp [filterKey, hk]
          have h2 : filterKey k (r :: rs) = filterKey k rs := by
            simp [filterKey, hk]
          rw [h1, h2, ih]

theorem perm_of_filterKey_eq {l₁ l₂ : List Row}
    (h : ∀ k, filterKey k l₁ = filterKey k l₂) : l₁.Perm l₂ := by
  rw [List.perm_iff_count]
  intro a
  have h1 : List.count a l₁ = List.count a (filterKey a.datetime_utc l₁) :=
    (List.count_filter (by simp)).symm
  have h2 : List.count a l₂ = List.count a (filterKey a.datetime_utc l₂) :=
    (List.count_filter (by simp)).symm
  rw [h1, h2, h]

theorem filterKey_of_uniqueKeys {l : List Row} {b : Row} (hu : uniqueKeys l)
    (hb : b ∈ l) : filterKey b.datetime_utc l = [b] := by
  induction l with
  | nil => simp at hb
  | cons r rs ih =>
      rcases List.pairwise_cons.mp hu with ⟨hr, hrs⟩
      rcases List.mem_cons.mp hb with hb | hb
      · subst hb
        have hnil : filterKey b.datetime_utc rs = [] := by
          rw [List.eq_nil_iff_forall_not_mem]
          intro x hx
          rcases List.mem_filter.mp hx with ⟨hx1, hx2⟩
          have hx2e : x.datetime_utc = b.datetime_utc := by simpa using hx2
          exact absurd hx2e.symm (hr x hx1)
        simp only [filterKey] at hnil ⊢
        simp [hnil]
      · have hne : r.datetime_utc ≠ b.datetime_utc := hr b hb
        have : filterKey b.datetime_utc (r :: rs) = filterKey b.datetime_utc rs := by
          simp [filterKey, hne]
        rw [this, ih hrs hb]

theorem eq_pair_of_perm_pair {l : List Row} {d : Row} (h : l.Perm [d, d]) :
    l = [d, d] := by
  have hlen : l.length = 2 := by simpa using h.length_eq
  match l, hlen with
  | [x, y], _ =>
      have hx : x = d := by
        have : x ∈ [d, d] := h.mem_iff.mp (by simp)
        simpa using this
      have hy : y = d := by
        have : y ∈ [d, d] := h.mem_iff.mp (by simp)
        simpa using this
      rw [hx, hy]

theorem strictSorted_of_sorted_unique {l : List Row} (hs : sortedByKey l)
    (hu : uniqueKeys l) : l.Pairwise rowLt := by
  have := List.pairwise_and_iff.mpr ⟨hs, hu⟩
  exact this.imp fun h => lt_of_le_of_ne h.1 h.2

theorem filterKey_append (k : Nat) (l₁ l₂ : List Row) :
    filterKey k (l₁ ++ l₂) = filterKey k l₁ ++ filterKey k l₂ := by
  simp [filterKey]

theorem mem_keys_iff {k : Nat} {l : List Row} :
    k ∈ l.map Row.datetime_utc ↔ filterKey k l ≠ [] := by
  constructor
  · rintro hk hnil
    rcases List.mem_map.mp hk with ⟨x, hx, hxk⟩
    have : x ∈ filterKey k l := List.mem_filter.mpr ⟨hx, by simp [hxk]⟩
    rw [hnil] at this
    simp at this
  · intro hne
    rcases List.exists_mem_of_ne_nil _ hne with ⟨x, hx⟩
    rcases List.mem_filter.mp hx with ⟨hx1, hx2⟩
    exact List.mem_map.mpr ⟨x, hx1, by simpa using hx2⟩

theorem mem_keys_keepLast {k : Nat} {l : List Row} :
    k ∈ (drop_duplicates_keep_last l).map Row.datetime_utc ↔
      k ∈ l.map Row.datetime_utc := by
  rw [mem_keys_iff, mem_keys_iff, filterKey_keepLast]
  cases hf : filterKey k l with
  | nil => simp
  | cons x xs =>
      obtain ⟨y, hy⟩ := Option.isSome_iff_exists.mp
        (List.getLast?_isSome.mpr (List.cons_ne_nil x xs))
      simp [hy]

/-- Claim C1, counterexample.  With old row (t=1, cloud=50) and new row
(t=1, cloud=20), the list that places the new row first and the old row last
is a legitimate `sort_values('datetime_utc')` output for the concatenation
(it is a sorted permutation — the two keys are equal, and the default
quicksort does not promise to keep concatenation order), yet deduplication
keeping the last occurrence then retains the OLD row, so the merged value at
the shared timestamp is 50, not the new 20. -/
theorem merge_collision_new_not_guaranteed :
    sort_values_spec ([mkRow 1 50] ++ [mkRow 1 20]) [mkRow 1 20, mkRow 1 50] ∧
    uniqueKeys [mkRow 1 20] ∧
    (mkRow 1 20).datetime_utc ∈ ([mkRow 1 50].map Row.datetime_utc) ∧
    filterKey 1 (save_merged_out (some [mkRow 1 50]) [mkRow 1 20]
      [mkRow 1 20, mkRow 1 50]) = [mkRow 1 50] := by
  decide

/-- Claim C1, amended.  For every old dataset and new row set with the new
rows unique in `datetime_utc`, and every `sort_values` output `s` for the
concatenation that moreover preserves the concatenation order of rows with
equal `datetime_utc` (i.e. a stable sort, which pandas' default quicksort
does not guarantee), the merged dataset contains exactly one row for each
new row's timestamp and that row equals the new row. -/
theorem merge_collision_keeps_new_of_stable (old new_df s : List Row)
    (hs : sort_values_spec (old ++ new_df) s)
    (hstab : ∀ k ∈ (old ++ new_df).map Row.datetime_utc,
      filterKey k s = filterKey k (old ++ new_df))
    (hnu : uniqueKeys new_df) (b : Row) (hb : b ∈ new_df) :
    filterKey b.datetime_utc (save_merged_out (some old) new_df s) = [b] := by
  have hkmem : b.datetime_utc ∈ (old ++ new_df).map Row.datetime_utc :=
    List.mem_map.mpr ⟨b, List.mem_append_right old hb, rfl⟩
  have hfnew : filterKey b.datetime_utc new_df = [b] := filterKey_of_uniqueKeys hnu hb
  have hsplit : filterKey b.datetime_utc (old ++ new_df)
      = filterKey b.datetime_utc old ++ [b] := by
    rw [filterKey_append, hfnew]
  show filterKey b.datetime_utc (drop_duplicates_keep_last s) = [b]
  rw [filterKey_keepLast, hstab b.datetime_utc hkmem, hsplit, List.getLast?_concat]
  rfl

/-- Claim C1, witness for the amended theorem at a concrete collision: old
(t=1, cloud=50), new (t=1, cloud=20), stable sort output old-then-new. -/
theorem merge_collision_keeps_new_of_stable_witness :
    filterKey (mkRow 1 20).datetime_utc
      (save_merged_out (some [mkRow 1 50]) [mkRow 1 20] [mkRow 1 50, mkRow 1 20])
      = [mkRow 1 20] :=
  merge_collision_keeps_new_of_stable [mkRow 1 50] [mkRow 1 20]
    [mkRow 1 50, mkRow 1 20] (by decide) (by decide) (by decide)
    (mkRow 1 20) (by decide)

/-- Claim C2, counterexample.  In the no-prior-dataset branch `save_merged`
writes the new rows as-is, so a new row set that is not ascending in
`datetime_utc` is written unsorted: the claimed invariant does not hold for
every run of that branch. -/
theorem save_merged_first_run_unsorted :
    ¬ sortedByKey (save_merged_out none [mkRow 2 0, mkRow 1 0] []) := by
  decide

/-- Claim C2, amended.  The written dataset has unique `datetime_utc` per row
and ascending `datetime_utc` after every run of the merge branch
unconditionally — the only hypothesis there is the sort contract; in the
no-prior-dataset branch the new rows are written unchanged, so there the
invariant holds exactly when the incoming rows already satisfy it (which
they do for the API's ascending hourly series), hence that assumption is
conditioned on that branch. -/
theorem save_merged_sorted_unique (ex : Option (List Row)) (new_df s : List Row)
    (hc : sort_contract ex new_df s)
    (hnew : ex = none → sortedByKey new_df ∧ uniqueKeys new_df) :
    sortedByKey (save_merged_out ex new_df s) ∧
      uniqueKeys (save_merged_out ex new_df s) := by
  cases ex with
  | none => exact hnew rfl
  | some old =>
      have hs : sort_values_spec (old ++ new_df) s := hc
      exact ⟨keepLast_sorted hs.2, keepLast_uniqueKeys s⟩

/-- Claim C2, witness at a concrete merge with unsorted, duplicate-keyed new
rows: the merge branch restores the invariant with no assumption on the
incoming rows. -/
theorem save_merged_sorted_unique_witness :
    sortedByKey (save_merged_out (some [mkRow 2 1]) [mkRow 3 5, mkRow 1 2, mkRow 1 4]
      [mkRow 1 2, mkRow 1 4, mkRow 2 1, mkRow 3 5]) ∧
    uniqueKeys (save_merged_out (some [mkRow 2 1]) [mkRow 3 5, mkRow 1 2, mkRow 1 4]
      [mkRow 1 2, mkRow 1 4, mkRow 2 1, mkRow 3 5]) :=
  save_merged_sorted_unique (some [mkRow 2 1]) [mkRow 3 5, mkRow 1 2, mkRow 1 4]
    [mkRow 1 2, mkRow 1 4, mkRow 2 1, mkRow 3 5] (by decide) (by simp)

/-- Claim C3.  For every fetch outcome, annotator, initial file state and
sort output: the pipeline writes the dataset file at most once; if any stage
fails (fetch, annotation, or the load step of the merge) the file is left
exactly as it was and nothing is written; a write happens exactly when the
whole run succeeds. -/
theorem main_run_write_once {α : Type} (fetch_res : Except String α)
    (annotate : α → Except String (List Row)) (fs : FileState) (s : List Row) :
    (main_run fetch_res annotate fs s).2.2 ≤ 1 ∧
    (∀ e, (main_run fetch_res annotate fs s).1 = .error e →
      (main_run fetch_res annotate fs s).2.1 = fs ∧
      (main_run fetch_res annotate fs s).2.2 = 0) ∧
    ((main_run fetch_res annotate fs s).1 = .ok () →
      (main_run fetch_res annotate fs s).2.2 = 1) := by
  cases fetch_res with
  | error e => simp [main_run]
  | ok df =>
      cases hann : annotate df with
      | error e => simp [main_run, hann]
      | ok df2 =>
          cases fs with
          | absent => simp [main_run, hann, save_merged, load_existing]
          | corrupt => simp [main_run, hann, save_merged, load_existing]
          | good rows => simp [main_run, hann, save_merged, load_existing]

/-- Claim C3, witness: a failed fetch leaves an absent file absent with zero
writes. -/
theorem main_run_write_once_witness :
    ((main_run (Except.error ("HTTPError")) (fun df : List Row => Except.ok df)
        FileState.absent []).2.1 = FileState.absent ∧
      (main_run (Except.error ("HTTPError")) (fun df : List Row => Except.ok df)
        FileState.absent []).2.2 = 0) :=
  (main_run_write_once (Except.error ("HTTPError"))
    (fun df : List Row => Except.ok df) FileState.absent []).2.1 ("HTTPError") rfl

/-- Claim C4, evaluation at the failing inputs.  `almanac.phase` returns 0
at new moon and pi (180 degrees) at full opposition; the script's formula
`(1 + cos(phase)) / 2` then yields 1 at new moon and 0 at full opposition —
the inverse of the illuminated fraction the spec describes (0 at new moon,
1 at full). -/
theorem moon_illum_inverted :
    moon_illum_of_phase 0 = 1 ∧ moon_illum_of_phase Real.pi = 0 := by
  constructor
  · simp [moon_illum_of_phase]
  · simp [moon_illum_of_phase, Real.cos_pi]

/-- Claim C5.  For every ephemeris oracle and input, every row of the
annotator's output has `is_night = true` exactly when its `sun_alt_deg` is
at most -12. -/
theorem is_night_iff_sun_below_threshold
    (sun_alt_at moon_alt_at phase_at : Nat → ℝ) (df : List FetchRow)
    (r : AnnRow) (hr : r ∈ add_astronomy_features sun_alt_at moon_alt_at phase_at df) :
    r.is_night = true ↔ r.sun_alt_deg ≤ -12 := by
  rcases List.mem_map.mp hr with ⟨x, hx, rfl⟩
  simp [decide_eq_true_iff]

theorem annEx_mem :
    annEx ∈ add_astronomy_features zeroEph zeroEph zeroEph [rawEx] := by
  simp [annEx, add_astronomy_features]

/-- Claim C5, witness at the concrete annotated row `annEx`. -/
theorem is_night_iff_sun_below_threshold_witness :
    annEx.is_night = true ↔ annEx.sun_alt_deg ≤ -12 :=
  is_night_iff_sun_below_threshold zeroEph zeroEph zeroEph [rawEx] annEx annEx_mem

/-- Claim C6.  Merging a dataset `D` (unique, ascending timestamps) with
itself gives back exactly `D`, for every legitimate `sort_values` output for
`D ++ D`: each timestamp's two (identical) copies collapse to one, and the
sorted order of the distinct keys reproduces `D` row for row. -/
theorem merge_self_idempotent (D s : List Row) (hD : sortedByKey D)
    (hDu : uniqueKeys D) (hs : sort_values_spec (D ++ D) s) :
    save_merged_out (some D) D s = D := by
  have hfilters : ∀ k, filterKey k (drop_duplicates_keep_last s) = filterKey k D := by
    intro k
    have hperm : (filterKey k (D ++ D)).Perm (filterKey k s) := hs.1.filter _
    rw [filterKey_append] at hperm
    cases hfd : filterKey k D with
    | nil =>
        rw [hfd] at hperm
        have hnil : filterKey k s = [] := by
          simpa using hperm.symm.eq_nil
        rw [filterKey_keepLast, hnil]
        rfl
    | cons d ds =>
        have hdmem : d ∈ filterKey k D := by rw [hfd]; simp
        rcases List.mem_filter.mp hdmem with ⟨hdD, hdk⟩
        have hdke : d.datetime_utc = k := by simpa using hdk
        have hone : filterKey k D = [d] := by
          rw [← hdke]; exact filterKey_of_uniqueKeys hDu hdD
        rw [hone] at hperm
        have hpair : filterKey k s = [d, d] :=
          eq_pair_of_perm_pair (hperm.symm)
        rw [filterKey_keepLast, hpair, hfd.symm.trans hone]
        rfl
  have hperm2 : (drop_duplicates_keep_last s).Perm D := perm_of_filterKey_eq hfilters
  have hsort1 : (drop_duplicates_keep_last s).Pairwise rowLt :=
    strictSorted_of_sorted_unique (keepLast_sorted hs.2) (keepLast_uniqueKeys s)
  have hsort2 : D.Pairwise rowLt := strictSorted_of_sorted_unique hD hDu
  show drop_duplicates_keep_last s = D
  exact List.eq_of_perm_of_sorted hperm2 hsort1 hsort2

/-- Claim C6, witness at the two-row dataset [t=1, t=2] merged with
itself. -/
theorem merge_self_idempotent_witness :
    (sortedByKey [mkRow 1 10, mkRow 2 20] ∧ uniqueKeys [mkRow 1 10, mkRow 2 20] ∧
      sort_values_spec ([mkRow 1 10, mkRow 2 20] ++ [mkRow 1 10, mkRow 2 20])
        [mkRow 1 10, mkRow 1 10, mkRow 2 20, mkRow 2 20]) ∧
    save_merged_out (some [mkRow 1 10, mkRow 2 20]) [mkRow 1 10, mkRow 2 20]
      [mkRow 1 10, mkRow 1 10, mkRow 2 20, mkRow 2 20] = [mkRow 1 10, mkRow 2 20] :=
  ⟨⟨by decide, by decide, by decide⟩,
    merge_self_idempotent _ _ (by decide) (by decide) (by decide)⟩

/-- Claim C7.  Every row of the annotator's output has `moon_illum` in the
closed interval [0, 1]: the formula `(1 + cos(phase)) / 2` is bounded for
every real phase angle. -/
theorem moon_illum_mem_unit_interval
    (sun_alt_at moon_alt_at phase_at : Nat → ℝ) (df : List FetchRow)
    (r : AnnRow) (hr : r ∈ add_astronomy_features sun_alt_at moon_alt_at phase_at df) :
    0 ≤ r.moon_illum ∧ r.moon_illum ≤ 1 := by
  rcases List.mem_map.mp hr with ⟨x, hx, rfl⟩
  have hc1 := Real.neg_one_le_cos (phase_at x.datetime_utc.clock)
  have hc2 := Real.cos_le_one (phase_at x.datetime_utc.clock)
  constructor
  · simp only [moon_illum_of_phase]
    linarith
  · simp only [moon_illum_of_phase]
    linarith

/-- Claim C7, witness at the concrete annotated row `annEx`. -/
theorem moon_illum_mem_unit_interval_witness :
    0 ≤ annEx.moon_illum ∧ annEx.moon_illum ≤ 1 :=
  moon_illum_mem_unit_interval zeroEph zeroEph zeroEph [rawEx] annEx annEx_mem

theorem zip_rows_datetime :
    ∀ (ts : List TimeStr) (cs ps vs tcs ws : List ℚ),
      cs.length = ts.length → ps.length = ts.length → vs.length = ts.length →
      tcs.length = ts.length → ws.length = ts.length →
      (zip_rows ts cs ps vs tcs ws).map (fun r => r.datetime_utc)
        = ts.map to_datetime := by
  intro ts
  induction ts with
  | nil => intro cs ps vs tcs ws _ _ _ _ _; cases cs <;> rfl
  | cons t ts ih =>
      intro cs ps vs tcs ws h1 h2 h3 h4 h5
      cases cs with
      | nil => simp at h1
      | cons c cs =>
          cases ps with
          | nil => simp at h2
          | cons p ps =>
              cases vs with
              | nil => simp at h3
              | cons v vs =>
                  cases tcs with
                  | nil => simp at h4
                  | cons tc tcs =>
                      cases ws with
                      | nil => simp at h5
                      | cons w ws =>
                          simp only [zip_rows, List.map_cons]
                          rw [ih cs ps vs tcs ws (by simpa using h1)
                            (by simpa using h2) (by simpa using h3)
                            (by simpa using h4) (by simpa using h5)]

/-- Claim C8, counterexample.  An offset-less hourly time string — the shape
Open-Meteo returns for `timezone=UTC` — parses through the fetcher to a
timezone-naive timestamp, so the fetcher's `datetime_utc` values are not
UTC-aware. -/
theorem fetch_timestamps_not_tz_aware :
    ((fetch_open_meteo_hourly
      ⟨[⟨0, none⟩], [10], [0], [2000], [25], [3]⟩).all
        (fun r => r.datetime_utc.tz.isSome)) = false := by
  decide

/-- Claim C8, amended.  The fetcher parses each hourly time string without
timezone coercion (`pd.to_datetime` with no `utc=True`): the resulting
timestamp carries exactly the timezone information of the string (so the
offset-less strings Open-Meteo returns give timezone-naive timestamps), and
the wall-clock value — which is UTC wall-clock for `timezone=UTC` requests —
is preserved. -/
theorem fetch_tz_preserved (h : HourlyBlock)
    (h1 : h.cloudcover.length = h.time.length)
    (h2 : h.precipitation_probability.length = h.time.length)
    (h3 : h.visibility.length = h.time.length)
    (h4 : h.temperature_2m.length = h.time.length)
    (h5 : h.windspeed_10m.length = h.time.length) :
    (fetch_open_meteo_hourly h).map (fun r => r.datetime_utc.tz)
      = h.time.map TimeStr.utc_offset ∧
    (fetch_open_meteo_hourly h).map (fun r => r.datetime_utc.clock)
      = h.time.map TimeStr.clock := by
  have hdt := zip_rows_datetime h.time h.cloudcover h.precipitation_probability
    h.visibility h.temperature_2m h.windspeed_10m h1 h2 h3 h4 h5
  constructor
  · have := congrArg (List.map (fun p : PdTimestamp => p.tz)) hdt
    simpa [fetch_open_meteo_hourly, List.map_map, Function.comp, to_datetime]
      using this
  · have := congrArg (List.map (fun p : PdTimestamp => p.clock)) hdt
    simpa [fetch_open_meteo_hourly, List.map_map, Function.comp, to_datetime]
      using this

/-- Claim C8, witness at a one-string response block. -/
theorem fetch_tz_preserved_witness :
    ((fetch_open_meteo_hourly
        ⟨[⟨7, none⟩], [10], [0], [2000], [25], [3]⟩).map
          (fun r => r.datetime_utc.tz)
        = ([⟨7, none⟩] : List TimeStr).map TimeStr.utc_offset ∧
      (fetch_open_meteo_hourly
        ⟨[⟨7, none⟩], [10], [0], [2000], [25], [3]⟩).map
          (fun r => r.datetime_utc.clock)
        = ([⟨7, none⟩] : List TimeStr).map TimeStr.clock) :=
  fetch_tz_preserved ⟨[⟨7, none⟩], [10], [0], [2000], [25], [3]⟩
    rfl rfl rfl rfl rfl

/-- Claim C9.  Every row of the annotator's output has
`visibility_km = visibility_m / 1000`. -/
theorem visibility_km_conversion
    (sun_alt_at moon_alt_at phase_at : Nat → ℝ) (df : List FetchRow)
    (r : AnnRow) (hr : r ∈ add_astronomy_features sun_alt_at moon_alt_at phase_at df) :
    r.visibility_km = r.visibility_m / 1000 := by
  rcases List.mem_map.mp hr with ⟨x, hx, rfl⟩
  rfl

/-- Claim C9, witness at the concrete annotated row `annEx`. -/
theorem visibility_km_conversion_witness :
    annEx.visibility_km = annEx.visibility_m / 1000 :=
  visibility_km_conversion zeroEph zeroEph zeroEph [rawEx] annEx annEx_mem

/-- Claim C10.  For every prior-file contents, new row set and legitimate
`sort_values` output, a timestamp occurs in the merged output exactly when it
occurs in the existing dataset or in the new rows: merging loses no
timestamp and invents none. -/
theorem merged_keys_union (ex : Option (List Row)) (new_df s : List Row)
    (hc : sort_contract ex new_df s) :
    ∀ k, k ∈ (save_merged_out ex new_df s).map Row.datetime_utc ↔
      (k ∈ (ex.getD []).map Row.datetime_utc ∨ k ∈ new_df.map Row.datetime_utc) := by
  intro k
  cases ex with
  | none => simp [save_merged_out]
  | some old =>
      have hs : sort_values_spec (old ++ new_df) s := hc
      show k ∈ (drop_duplicates_keep_last s).map Row.datetime_utc ↔ _
      rw [mem_keys_keepLast]
      have hkeys : (s.map Row.datetime_utc).Perm ((old ++ new_df).map Row.datetime_utc) :=
        (hs.1.map Row.datetime_utc).symm
      rw [hkeys.mem_iff]
      simp [List.mem_append]

/-- Claim C10, witness: key 3 of the old dataset survives a merge with a new
row at key 1. -/
theorem merged_keys_union_witness :
    (3 ∈ (save_merged_out (some [mkRow 3 1]) [mkRow 1 2]
        [mkRow 1 2, mkRow 3 1]).map Row.datetime_utc ↔
      (3 ∈ ((some [mkRow 3 1]).getD []).map Row.datetime_utc ∨
        3 ∈ ([mkRow 1 2].map Row.datetime_utc))) :=
  merged_keys_union (some [mkRow 3 1]) [mkRow 1 2] [mkRow 1 2, mkRow 3 1]
    (by decide) 3

end Stargaze
